import Mathlib

/-!
Shallow embedding of `src/mkt/langpacks/models.py`: the `LangPack` model and
its upload workflow (`from_upload`, `handle_file_operations`,
`sign_and_move_file`, the path helpers `filename` / `file_path`, and the
retrieval helpers `get_manifest_json` / `get_minifest_contents`).

External collaborators are modelled at their interface, collected in an
`Env` record: the manifest parser (`LanguagePackParser.parse` /
`get_json_data`), the signer (`sign_app`, which either writes the signed
file at the destination or raises `SigningError`, possibly leaving a
partial file behind), the Django field validation for `language`,
the uuid generator (`UUIDField._create_uuid`), the `json` codec
(`dumps` / `loads`), and the `ADDONS_PATH` setting.

Mutable state is threaded explicitly in a `St` record: the set of paths
present in `public_storage`, the durable database rows (keyed by primary
key), and a trace of externally observable calls (signer invocations, row
saves, mini-manifest refreshes), used to state temporal properties.

Python's in-place mutation of `self` and `upload` is modelled by returning
the updated values; a raised exception is modelled by an error outcome
carried alongside the state reached at the raise point (matching Python,
where in-memory mutations performed before a raise survive it while the
database row does not change until `save()`).
-/

namespace LangPacks

/-- JSON values as handled by Python's `json` module (external library). -/
inductive Json where
  | null : Json
  | bool : Bool → Json
  | num : Int → Json
  | str : String → Json
  | arr : List Json → Json
  | obj : List (String × Json) → Json
deriving Repr

/-- One `LangPack` row: `uuid` (primary key, `None` until allocated),
the manifest-sourced fields `language`, `fxos_version`, `version`, the
stored `manifest` blob (a JSON string), the upload counter `file_version`
(default 0), and the API-settable `active` flag (default `False`). -/
structure LangPack where
  uuid : Option String
  language : String
  fxos_version : String
  version : String
  manifest : String
  file_version : Nat
  active : Bool
deriving Repr, DecidableEq

/-- The `FileUpload` object passed to `from_upload`: its staging `path`
plus a stand-in `name` field for the other attributes the workflow never
touches. -/
structure Upload where
  path : String
  name : String
deriving Repr, DecidableEq

/-- Fields returned by `LanguagePackParser.parse` that survive the
`allowed_fields` whitelist `('language', 'fxos_version', 'version')` in
`from_upload` (the parser is external; per the spec it returns exactly the
locale, target-platform version and declared version). -/
structure ParsedData where
  language : String
  fxos_version : String
  version : String
deriving Repr, DecidableEq

/-- The identity block `{'id': self.pk, 'version': self.file_version}`
built in `sign_and_move_file` (the source serializes this dict with
`json.dumps` before handing it to `sign_app`; the serialization is the
external json module, the content is what the claims are about). -/
structure IdsBlock where
  id : String
  version : Nat
deriving Repr, DecidableEq

/-- Outcome of the external `sign_app` call: success writes the signed
file at the destination; failure raises `SigningError`, and the flag
records whether a partial file was left at the destination path. -/
inductive SignOutcome where
  | ok : SignOutcome
  | fail : Bool → SignOutcome
deriving Repr, DecidableEq

/-- The exceptions `from_upload` can surface: `ValidationError` (from the
parser or the `language` field validation), the `RuntimeError` raised on a
destination collision, and `SigningError` propagated from the signer. -/
inductive UploadError where
  | validation : UploadError
  | collision : UploadError
  | signing : UploadError
deriving Repr, DecidableEq

/-- Externally observable calls, recorded in order: a signer invocation
(source path, destination path, identity block), a database row save, and
a mini-manifest cache refresh (`get_cached_minifest`) with its `force`
flag. -/
inductive Event where
  | sign : String → String → IdsBlock → Event
  | save : String → Event
  | minifest : String → Bool → Event
deriving Repr, DecidableEq

/-- External collaborators and configuration, fixed for one call:
`ADDONS_PATH`, the uuid the generator would mint, the parser (which also
receives the optional instance, as `LanguagePackParser(instance=instance)`
does), the `language`-choices validation, the signer, and the json codec. -/
structure Env where
  addonsPath : String
  create_uuid : String
  parse : Option LangPack → Upload → Except Unit ParsedData
  get_json_data : Option LangPack → Upload → Json
  validate_language : String → Bool
  sign_app : String → String → IdsBlock → SignOutcome
  dumps : Json → String
  loads : String → Option Json

/-- Mutable world state: paths existing in `public_storage`, the durable
rows keyed by primary key, and the trace of external calls. -/
structure St where
  storage : List String
  db : List (String × LangPack)
  trace : List Event
deriving Repr, DecidableEq

/-- Result of a `from_upload` call: final world state, the final state of
the upload object, the final in-memory instance (when one exists), and
`none` for success or the exception that propagated. -/
structure Result where
  st : St
  upload : Upload
  inst : Option LangPack
  outcome : Option UploadError
deriving Repr, DecidableEq

/-- Modelled from the spec: `nfd_str` (defined in `mkt/files/models.py`,
outside `src/`) Unicode-normalizes a string. The spec treats the storage
path as a pure function of identity and declared version and the upload
input as read-only, so the normalization is modelled as the identity on
strings. -/
def nfd_str (s : String) : String := s

/-- Modelled from the spec: `smart_path` (defined in `mkt/site/utils.py`,
outside `src/`) re-encodes a path string; per the spec's read-only upload
contract it is modelled as the identity on strings. -/
def smart_path (s : String) : String := s

/-- Python string interpolation of the primary key: `'%s' % self.pk`
(prints `None` when the uuid is unset, as Python would). -/
def pk_string (lp : LangPack) : String :=
  match lp.uuid with
  | some u => u
  | none => "None"

/-- The `filename` property: `'%s-%s.zip' % (self.uuid, self.version)`. -/
def filename (lp : LangPack) : String :=
  pk_string lp ++ "-" ++ lp.version ++ ".zip"

/-- `os.path.join` on the path fragments the model produces (none of which
are absolute, so the join is plain concatenation with a separator). -/
def path_join (a b : String) : String := a ++ "/" ++ b

/-- The `file_path` property: `os.path.join(self.path_prefix,
nfd_str(self.filename))` with the prefix property being
`os.path.join(settings.ADDONS_PATH, 'langpacks', str(self.pk))`. -/
def file_path (env : Env) (lp : LangPack) : String :=
  path_join (path_join (path_join env.addonsPath "langpacks") (pk_string lp))
    (nfd_str (filename lp))

/-- `reset_uuid`: assign a freshly generated uuid. -/
def reset_uuid (env : Env) (lp : LangPack) : LangPack :=
  { lp with uuid := some env.create_uuid }

/-- The guard at the top of `handle_file_operations`: `if not self.uuid:
self.reset_uuid()`. -/
def with_uuid (env : Env) (lp : LangPack) : LangPack :=
  if lp.uuid = none then reset_uuid env lp else lp

/-- The increment `self.file_version = self.file_version + 1` performed by
`handle_file_operations` once the collision check passed. -/
def bump_version (lp : LangPack) : LangPack :=
  { lp with file_version := lp.file_version + 1 }

/-- `sign_and_move_file`: build the ids block, call the external signer
(which on success writes the signed file at `self.file_path`); on
`SigningError`, delete any partial file left at the destination and
re-raise the error unchanged. -/
def sign_and_move_file (env : Env) (st : St) (lp : LangPack) (upload : Upload) :
    St × Option UploadError :=
  let ids : IdsBlock := { id := pk_string lp, version := lp.file_version }
  let dest := file_path env lp
  let st1 : St := { st with trace := st.trace ++ [Event.sign upload.path dest ids] }
  match env.sign_app upload.path dest ids with
  | SignOutcome.ok => ({ st1 with storage := st1.storage ++ [dest] }, none)
  | SignOutcome.fail fragment =>
      let storage1 := if fragment then st1.storage ++ [dest] else st1.storage
      let storage2 := if dest ∈ storage1 then storage1.filter (fun p => p != dest) else storage1
      ({ st1 with storage := storage2 }, some UploadError.signing)

/-- `handle_file_operations`: normalize the upload path in place, allocate
the uuid if absent, fail with the collision `RuntimeError` when the
destination already exists, otherwise increment `file_version` and sign
and move the file. -/
def handle_file_operations (env : Env) (st : St) (lp : LangPack) (upload : Upload) :
    St × LangPack × Upload × Option UploadError :=
  let upload1 := { upload with path := smart_path (nfd_str upload.path) }
  let lp1 := with_uuid env lp
  if file_path env lp1 ∈ st.storage then
    (st, lp1, upload1, some UploadError.collision)
  else
    let lp2 := bump_version lp1
    match sign_and_move_file env st lp2 upload1 with
    | (st2, err) => (st2, lp2, upload1, err)

/-- Upsert of the instance into the durable table, keyed by primary key
(`instance.save()` writes all fields of the row at once). -/
def db_save (db : List (String × LangPack)) (lp : LangPack) : List (String × LangPack) :=
  (pk_string lp, lp) :: db.filter (fun kv => kv.fst != pk_string lp)

/-- `instance.save()`: commit the row and record the save event. -/
def save_row (st : St) (lp : LangPack) : St :=
  { st with db := db_save st.db lp, trace := st.trace ++ [Event.save (pk_string lp)] }

/-- `get_minifest_contents(force=...)`: delegates to the external
`get_cached_minifest`; modelled as the recorded cache-refresh event. -/
def get_minifest_contents (st : St) (lp : LangPack) (force : Bool) : St :=
  { st with trace := st.trace ++ [Event.minifest (pk_string lp) force] }

/-- `get_manifest_json`: `json.loads(self.manifest)`. -/
def get_manifest_json (env : Env) (lp : LangPack) : Option Json :=
  env.loads lp.manifest

/-- The instance as it stands after `from_upload` applied the parsed data:
the whitelisted fields plus the dumped manifest blob are written onto the
passed instance, or a fresh instance is built from them with the model
defaults (`uuid` unset, `file_version = 0`, `active = False`). -/
def staged (env : Env) (upload : Upload) (inst : Option LangPack) (d : ParsedData) :
    LangPack :=
  let m := env.dumps (env.get_json_data inst upload)
  match inst with
  | some lp =>
      { lp with language := d.language, fxos_version := d.fxos_version,
                version := d.version, manifest := m }
  | none =>
      { uuid := none, language := d.language, fxos_version := d.fxos_version,
        version := d.version, manifest := m, file_version := 0, active := false }

/-- Tail of `from_upload` after the `language` field validation passed:
run the file operations; when they raise, propagate; otherwise save the
row and refresh the mini-manifest cache with `force=True`. -/
def after_validate (env : Env) (st : St) (upload : Upload) (lp : LangPack) : Result :=
  match handle_file_operations env st lp upload with
  | (st1, lp1, up1, some e) => { st := st1, upload := up1, inst := some lp1, outcome := some e }
  | (st1, lp1, up1, none) =>
      { st := get_minifest_contents (save_row st1 lp1) lp1 true,
        upload := up1, inst := some lp1, outcome := none }

/-- `from_upload`: parse the upload (a parse failure propagates before
anything is touched), stage the whitelisted fields and the manifest blob
on the instance, validate the `language` choice, then hand over to the
file operations, save and cache refresh. -/
def from_upload (env : Env) (st : St) (upload : Upload) (inst : Option LangPack) : Result :=
  match env.parse inst upload with
  | Except.error _ =>
      { st := st, upload := upload, inst := inst, outcome := some UploadError.validation }
  | Except.ok d =>
      let lp := staged env upload inst d
      if env.validate_language lp.language then after_validate env st upload lp
      else { st := st, upload := upload, inst := some lp, outcome := some UploadError.validation }

/-- `file_version` of the artifact before the call (0 for a fresh row,
matching the field default). -/
def init_file_version (inst : Option LangPack) : Nat :=
  match inst with
  | some lp => lp.file_version
  | none => 0

/-- The row as committed by a successful upload: staged fields, uuid
ensured, `file_version` incremented. -/
def final_row (env : Env) (upload : Upload) (inst : Option LangPack) (d : ParsedData) :
    LangPack :=
  bump_version (with_uuid env (staged env upload inst d))

/-- The destination path computed for an upload (the `file_path` of the
instance after staging and uuid allocation; `file_version` does not enter
the path, so checking it before or after the bump is the same string). -/
def dest_path (env : Env) (upload : Upload) (inst : Option LangPack) (d : ParsedData) :
    String :=
  file_path env (with_uuid env (staged env upload inst d))

/-- The identity block handed to the signer by an upload: built by
`sign_and_move_file` from the instance after uuid allocation and version
bump, so its `version` is the already-incremented `file_version`. -/
def sign_ids (env : Env) (upload : Upload) (inst : Option LangPack) (d : ParsedData) :
    IdsBlock :=
  { id := pk_string (final_row env upload inst d),
    version := (final_row env upload inst d).file_version }

/-- Identity of the artifact before the call (`None` for a fresh row). -/
def init_uuid (inst : Option LangPack) : Option String :=
  match inst with
  | some lp => lp.uuid
  | none => none

/-! Concrete fixtures used by the witness theorems: a manifest value, two
parses (declared versions 1.0 and 2.0, selected by the upload's name), an
environment in which every external collaborator succeeds, and variants in
which the parser, the language validation or the signer fails. -/

def jA : Json := Json.obj [("name", Json.str "pack")]

def dA : ParsedData := { language := "en-US", fxos_version := "2.5", version := "1.0" }

def dB : ParsedData := { language := "en-US", fxos_version := "2.5", version := "2.0" }

def envA : Env :=
  { addonsPath := "addons",
    create_uuid := "u1",
    parse := fun _ up => Except.ok (if up.name = "b" then dB else dA),
    get_json_data := fun _ _ => jA,
    validate_language := fun l => l == "en-US",
    sign_app := fun _ _ _ => SignOutcome.ok,
    dumps := fun _ => "json-a",
    loads := fun _ => some jA }

def envSignFail : Env := { envA with sign_app := fun _ _ _ => SignOutcome.fail true }

def envParseBad : Env := { envA with parse := fun _ _ => Except.error () }

def envLangBad : Env := { envA with validate_language := fun _ => false }

def upA : Upload := { path := "tmp/a", name := "a" }

def upB : Upload := { path := "tmp/b", name := "b" }

def st0 : St := { storage := [], db := [], trace := [] }

/-- A world in which the destination path of `upA` under `envA` (for a
fresh row, whose uuid will be `u1`) is already occupied. -/
def stColl : St := { storage := ["addons/langpacks/u1/u1-1.0.zip"], db := [], trace := [] }

/-- An existing row, as left by some earlier upload. -/
def lpOld : LangPack :=
  { uuid := some "u0", language := "en-US", fxos_version := "1.0", version := "0.9",
    manifest := "m0", file_version := 3, active := true }

/-- Rows used by the path-purity witness: same identity and declared
version but different `file_version`, and a third with another declared
version. -/
def lpX : LangPack :=
  { uuid := some "u9", language := "fr", fxos_version := "2.0", version := "1.0",
    manifest := "mx", file_version := 4, active := false }

def lpY : LangPack := { lpX with file_version := 9, language := "de" }

def lpZ : LangPack := { lpX with version := "2.0" }

/-- The rows produced by the two-successive-uploads witness scenario:
first upload of `upA` onto a fresh artifact, then `upB` onto the result. -/
def lpW1 : LangPack :=
  { uuid := some "u1", language := "en-US", fxos_version := "2.5", version := "1.0",
    manifest := "json-a", file_version := 1, active := false }

def lpW2 : LangPack := { lpW1 with version := "2.0", file_version := 2 }



/-! Characterization lemmas: one per branch of the workflow, proved by
unfolding the step functions under the branch hypotheses. -/

theorem with_uuid_file_version (env : Env) (lp : LangPack) :
    (with_uuid env lp).file_version = lp.file_version := by
  unfold with_uuid reset_uuid
  split <;> rfl

theorem with_uuid_version (env : Env) (lp : LangPack) :
    (with_uuid env lp).version = lp.version := by
  unfold with_uuid reset_uuid
  split <;> rfl

theorem with_uuid_manifest (env : Env) (lp : LangPack) :
    (with_uuid env lp).manifest = lp.manifest := by
  unfold with_uuid reset_uuid
  split <;> rfl

theorem with_uuid_language (env : Env) (lp : LangPack) :
    (with_uuid env lp).language = lp.language := by
  unfold with_uuid reset_uuid
  split <;> rfl

theorem with_uuid_uuid_none (env : Env) (lp : LangPack) (h : lp.uuid = none) :
    (with_uuid env lp).uuid = some env.create_uuid := by
  unfold with_uuid reset_uuid
  rw [if_pos h]

theorem with_uuid_uuid_some (env : Env) (lp : LangPack) (u : String) (h : lp.uuid = some u) :
    (with_uuid env lp).uuid = some u := by
  unfold with_uuid reset_uuid
  rw [h]
  simp only [reduceCtorEq, if_false]
  exact h

theorem file_path_bump (env : Env) (lp : LangPack) :
    file_path env (bump_version lp) = file_path env lp := rfl

theorem sign_and_move_file_ok (env : Env) (st : St) (lp : LangPack) (upload : Upload)
    (h : env.sign_app upload.path (file_path env lp)
      { id := pk_string lp, version := lp.file_version } = SignOutcome.ok) :
    sign_and_move_file env st lp upload =
      ({ st with storage := st.storage ++ [file_path env lp],
                 trace := st.trace ++ [Event.sign upload.path (file_path env lp)
                   { id := pk_string lp, version := lp.file_version }] }, none) := by
  simp only [sign_and_move_file, h]

theorem sign_and_move_file_fail (env : Env) (st : St) (lp : LangPack) (upload : Upload)
    (frag : Bool)
    (hmem : file_path env lp ∉ st.storage)
    (h : env.sign_app upload.path (file_path env lp)
      { id := pk_string lp, version := lp.file_version } = SignOutcome.fail frag) :
    sign_and_move_file env st lp upload =
      ({ st with trace := st.trace ++ [Event.sign upload.path (file_path env lp)
                   { id := pk_string lp, version := lp.file_version }] },
       some UploadError.signing) := by
  simp only [sign_and_move_file, h]
  cases frag
  · simp [hmem]
  · have hmem2 : file_path env lp ∈ st.storage ++ [file_path env lp] := by simp
    simp only [if_true, hmem2, if_pos, List.filter_append]
    have h1 : st.storage.filter (fun p => p != file_path env lp) = st.storage := by
      rw [List.filter_eq_self]
      intro a ha
      simp only [bne_iff_ne, ne_eq, decide_eq_true_eq]
      intro e
      exact hmem (e ▸ ha)
    simp [h1]

theorem upload_eta (u : Upload) : ({ path := u.path, name := u.name } : Upload) = u := rfl

theorem pk_string_bump (lp : LangPack) : pk_string (bump_version lp) = pk_string lp := rfl

theorem bump_file_version (lp : LangPack) :
    (bump_version lp).file_version = lp.file_version + 1 := rfl

theorem staged_file_version (env : Env) (upload : Upload) (inst : Option LangPack)
    (d : ParsedData) : (staged env upload inst d).file_version = init_file_version inst := by
  cases inst <;> rfl

theorem handle_file_operations_collision (env : Env) (st : St) (lp : LangPack) (upload : Upload)
    (hc : file_path env (with_uuid env lp) ∈ st.storage) :
    handle_file_operations env st lp upload =
      (st, with_uuid env lp, upload, some UploadError.collision) := by
  simp only [handle_file_operations, smart_path, nfd_str, upload_eta, if_pos hc]

theorem handle_file_operations_sign_ok (env : Env) (st : St) (lp : LangPack) (upload : Upload)
    (hc : file_path env (with_uuid env lp) ∉ st.storage)
    (hs : env.sign_app upload.path (file_path env (with_uuid env lp))
      { id := pk_string (with_uuid env lp), version := (with_uuid env lp).file_version + 1 }
      = SignOutcome.ok) :
    handle_file_operations env st lp upload =
      ({ st with storage := st.storage ++ [file_path env (with_uuid env lp)],
                 trace := st.trace ++ [Event.sign upload.path (file_path env (with_uuid env lp))
                   { id := pk_string (with_uuid env lp),
                     version := (with_uuid env lp).file_version + 1 }] },
       bump_version (with_uuid env lp), upload, none) := by
  simp only [handle_file_operations, smart_path, nfd_str, upload_eta, if_neg hc]
  rw [sign_and_move_file_ok env st (bump_version (with_uuid env lp)) upload hs]
  rfl

theorem handle_file_operations_sign_fail (env : Env) (st : St) (lp : LangPack) (upload : Upload)
    (frag : Bool)
    (hc : file_path env (with_uuid env lp) ∉ st.storage)
    (hs : env.sign_app upload.path (file_path env (with_uuid env lp))
      { id := pk_string (with_uuid env lp), version := (with_uuid env lp).file_version + 1 }
      = SignOutcome.fail frag) :
    handle_file_operations env st lp upload =
      ({ st with trace := st.trace ++ [Event.sign upload.path (file_path env (with_uuid env lp))
           { id := pk_string (with_uuid env lp),
             version := (with_uuid env lp).file_version + 1 }] },
       bump_version (with_uuid env lp), upload, some UploadError.signing) := by
  simp only [handle_file_operations, smart_path, nfd_str, upload_eta, if_neg hc]
  rw [sign_and_move_file_fail env st (bump_version (with_uuid env lp)) upload frag hc hs]
  rfl

theorem from_upload_parse_error (env : Env) (st : St) (upload : Upload)
    (inst : Option LangPack) (e : Unit)
    (h : env.parse inst upload = Except.error e) :
    from_upload env st upload inst =
      { st := st, upload := upload, inst := inst, outcome := some UploadError.validation } := by
  simp only [from_upload, h]

theorem from_upload_bad_language (env : Env) (st : St) (upload : Upload)
    (inst : Option LangPack) (d : ParsedData)
    (hp : env.parse inst upload = Except.ok d)
    (hl : env.validate_language (staged env upload inst d).language = false) :
    from_upload env st upload inst =
      { st := st, upload := upload, inst := some (staged env upload inst d),
        outcome := some UploadError.validation } := by
  simp only [from_upload, hp, hl, Bool.false_eq_true, if_false]

theorem from_upload_collision (env : Env) (st : St) (upload : Upload)
    (inst : Option LangPack) (d : ParsedData)
    (hp : env.parse inst upload = Except.ok d)
    (hl : env.validate_language (staged env upload inst d).language = true)
    (hc : dest_path env upload inst d ∈ st.storage) :
    from_upload env st upload inst =
      { st := st, upload := upload, inst := some (with_uuid env (staged env upload inst d)),
        outcome := some UploadError.collision } := by
  simp only [from_upload, hp, hl, if_true, after_validate]
  rw [handle_file_operations_collision env st (staged env upload inst d) upload hc]

theorem from_upload_sign_fail (env : Env) (st : St) (upload : Upload)
    (inst : Option LangPack) (d : ParsedData) (frag : Bool)
    (hp : env.parse inst upload = Except.ok d)
    (hl : env.validate_language (staged env upload inst d).language = true)
    (hc : dest_path env upload inst d ∉ st.storage)
    (hs : env.sign_app upload.path (dest_path env upload inst d) (sign_ids env upload inst d)
      = SignOutcome.fail frag) :
    from_upload env st upload inst =
      { st := { st with trace := st.trace ++
          [Event.sign upload.path (dest_path env upload inst d) (sign_ids env upload inst d)] },
        upload := upload, inst := some (final_row env upload inst d),
        outcome := some UploadError.signing } := by
  simp only [from_upload, hp, hl, if_true, after_validate]
  rw [handle_file_operations_sign_fail env st (staged env upload inst d) upload frag hc hs]
  rfl

theorem from_upload_success_eq (env : Env) (st : St) (upload : Upload)
    (inst : Option LangPack) (d : ParsedData)
    (hp : env.parse inst upload = Except.ok d)
    (hl : env.validate_language (staged env upload inst d).language = true)
    (hc : dest_path env upload inst d ∉ st.storage)
    (hs : env.sign_app upload.path (dest_path env upload inst d) (sign_ids env upload inst d)
      = SignOutcome.ok) :
    from_upload env st upload inst =
      { st := { storage := st.storage ++ [dest_path env upload inst d],
                db := db_save st.db (final_row env upload inst d),
                trace := st.trace ++
                  [Event.sign upload.path (dest_path env upload inst d) (sign_ids env upload inst d),
                   Event.save (pk_string (final_row env upload inst d)),
                   Event.minifest (pk_string (final_row env upload inst d)) true] },
        upload := upload, inst := some (final_row env upload inst d),
        outcome := none } := by
  simp only [from_upload, hp, hl, if_true, after_validate]
  rw [handle_file_operations_sign_ok env st (staged env upload inst d) upload hc hs]
  simp only [save_row, get_minifest_contents, db_save, List.append_assoc]
  rfl

theorem from_upload_success_inv (env : Env) (st : St) (upload : Upload)
    (inst : Option LangPack)
    (h : (from_upload env st upload inst).outcome = none) :
    ∃ d, env.parse inst upload = Except.ok d ∧
      env.validate_language (staged env upload inst d).language = true ∧
      dest_path env upload inst d ∉ st.storage ∧
      env.sign_app upload.path (dest_path env upload inst d) (sign_ids env upload inst d)
        = SignOutcome.ok := by
  cases hp : env.parse inst upload with
  | error e =>
      rw [from_upload_parse_error env st upload inst e hp] at h
      simp at h
  | ok d =>
      cases hl : env.validate_language (staged env upload inst d).language with
      | false =>
          rw [from_upload_bad_language env st upload inst d hp hl] at h
          simp at h
      | true =>
          by_cases hc : dest_path env upload inst d ∈ st.storage
          · rw [from_upload_collision env st upload inst d hp hl hc] at h
            simp at h
          · cases hs : env.sign_app upload.path (dest_path env upload inst d)
              (sign_ids env upload inst d) with
            | ok => exact ⟨d, rfl, hl, hc, hs⟩
            | fail frag =>
                rw [from_upload_sign_fail env st upload inst d frag hp hl hc hs] at h
                simp at h


theorem staged_uuid (env : Env) (upload : Upload) (inst : Option LangPack) (d : ParsedData) :
    (staged env upload inst d).uuid = init_uuid inst := by
  cases inst <;> rfl

theorem staged_manifest (env : Env) (upload : Upload) (inst : Option LangPack)
    (d : ParsedData) :
    (staged env upload inst d).manifest = env.dumps (env.get_json_data inst upload) := by
  cases inst <;> rfl

theorem with_uuid_uuid (env : Env) (lp : LangPack) :
    (with_uuid env lp).uuid = if lp.uuid = none then some env.create_uuid else lp.uuid := by
  unfold with_uuid reset_uuid
  split
  · simp
  · simp

theorem final_row_uuid (env : Env) (upload : Upload) (inst : Option LangPack) (d : ParsedData) :
    (final_row env upload inst d).uuid =
      if init_uuid inst = none then some env.create_uuid else init_uuid inst := by
  show (with_uuid env (staged env upload inst d)).uuid = _
  rw [with_uuid_uuid, staged_uuid]

theorem final_row_file_version (env : Env) (upload : Upload) (inst : Option LangPack)
    (d : ParsedData) :
    (final_row env upload inst d).file_version = init_file_version inst + 1 := by
  show (with_uuid env (staged env upload inst d)).file_version + 1 = _
  rw [with_uuid_file_version, staged_file_version]

theorem final_row_manifest (env : Env) (upload : Upload) (inst : Option LangPack)
    (d : ParsedData) :
    (final_row env upload inst d).manifest = env.dumps (env.get_json_data inst upload) := by
  show (with_uuid env (staged env upload inst d)).manifest = _
  rw [with_uuid_manifest, staged_manifest]

theorem sign_ids_spec (env : Env) (upload : Upload) (inst : Option LangPack) (d : ParsedData) :
    sign_ids env upload inst d =
      { id := pk_string (final_row env upload inst d),
        version := init_file_version inst + 1 } := by
  rw [sign_ids, final_row_file_version]

/-! The claims, in order. -/

/-- C1: for every upload that completes successfully via `from_upload`,
the resulting artifact's `file_version` equals its value before the call
plus one (0 becoming 1 on a first upload), and that is the row committed
to the database — the increment happens exactly once per successful
upload. -/
theorem upload_increments_file_version_once (env : Env) (st : St) (upload : Upload)
    (inst : Option LangPack)
    (h : (from_upload env st upload inst).outcome = none) :
    ∃ a, (from_upload env st upload inst).inst = some a ∧
      a.file_version = init_file_version inst + 1 ∧
      (from_upload env st upload inst).st.db = db_save st.db a := by
  obtain ⟨d, hp, hl, hc, hs⟩ := from_upload_success_inv env st upload inst h
  rw [from_upload_success_eq env st upload inst d hp hl hc hs]
  exact ⟨final_row env upload inst d, rfl, final_row_file_version env upload inst d, rfl⟩

theorem upload_increments_file_version_once_witness :
    (from_upload envA st0 upA none).outcome = none ∧
    ∃ a, (from_upload envA st0 upA none).inst = some a ∧
      a.file_version = init_file_version none + 1 ∧
      (from_upload envA st0 upA none).st.db = db_save st0.db a :=
  ⟨rfl, upload_increments_file_version_once envA st0 upA none rfl⟩

/-- C2: when the computed destination path already exists in storage, the
upload fails with the collision error (a kind distinct from a signing
failure), nothing is written or deleted in storage, the version counter of
the in-memory instance is not incremented, and the durable record — in
fact the entire world state — is byte-identical before and after. -/
theorem collision_rejects_upload (env : Env) (st : St) (upload : Upload)
    (inst : Option LangPack) (d : ParsedData)
    (hp : env.parse inst upload = Except.ok d)
    (hl : env.validate_language (staged env upload inst d).language = true)
    (hc : dest_path env upload inst d ∈ st.storage) :
    (from_upload env st upload inst).outcome = some UploadError.collision ∧
    UploadError.collision ≠ UploadError.signing ∧
    (from_upload env st upload inst).st.storage = st.storage ∧
    (from_upload env st upload inst).st.db = st.db ∧
    (from_upload env st upload inst).st = st ∧
    ∃ a, (from_upload env st upload inst).inst = some a ∧
      a.file_version = init_file_version inst := by
  rw [from_upload_collision env st upload inst d hp hl hc]
  refine ⟨rfl, by simp, rfl, rfl, rfl, with_uuid env (staged env upload inst d), rfl, ?_⟩
  rw [with_uuid_file_version, staged_file_version]

theorem collision_rejects_upload_witness :
    envA.parse none upA = Except.ok dA ∧
    dest_path envA upA none dA ∈ stColl.storage ∧
    (from_upload envA stColl upA none).outcome = some UploadError.collision ∧
    (from_upload envA stColl upA none).st = stColl :=
  ⟨rfl, by decide,
   (collision_rejects_upload envA stColl upA none dA rfl rfl (by decide)).1,
   (collision_rejects_upload envA stColl upA none dA rfl rfl (by decide)).2.2.2.2.1⟩

/-- C3: when the signer fails, no file exists at the destination path
afterwards (any partial file was deleted and storage is exactly as
before), the signing failure is surfaced as such, and the durable rows —
including `content_version` and `manifest` — are untouched. -/
theorem signing_failure_rolls_back (env : Env) (st : St) (upload : Upload)
    (inst : Option LangPack) (d : ParsedData) (frag : Bool)
    (hp : env.parse inst upload = Except.ok d)
    (hl : env.validate_language (staged env upload inst d).language = true)
    (hc : dest_path env upload inst d ∉ st.storage)
    (hs : env.sign_app upload.path (dest_path env upload inst d) (sign_ids env upload inst d)
      = SignOutcome.fail frag) :
    (from_upload env st upload inst).outcome = some UploadError.signing ∧
    dest_path env upload inst d ∉ (from_upload env st upload inst).st.storage ∧
    (from_upload env st upload inst).st.storage = st.storage ∧
    (from_upload env st upload inst).st.db = st.db := by
  rw [from_upload_sign_fail env st upload inst d frag hp hl hc hs]
  exact ⟨rfl, hc, rfl, rfl⟩

theorem signing_failure_rolls_back_witness :
    envSignFail.sign_app upA.path (dest_path envSignFail upA none dA)
      (sign_ids envSignFail upA none dA) = SignOutcome.fail true ∧
    (from_upload envSignFail st0 upA none).outcome = some UploadError.signing ∧
    dest_path envSignFail upA none dA ∉ (from_upload envSignFail st0 upA none).st.storage ∧
    (from_upload envSignFail st0 upA none).st.db = st0.db :=
  ⟨rfl,
   (signing_failure_rolls_back envSignFail st0 upA none dA true rfl rfl (by decide) rfl).1,
   (signing_failure_rolls_back envSignFail st0 upA none dA true rfl rfl (by decide) rfl).2.1,
   (signing_failure_rolls_back envSignFail st0 upA none dA true rfl rfl (by decide) rfl).2.2.2⟩

/-- C4 counterexample: an upload whose manifest fails validation (here the
`language` choice validation, which `from_upload` runs only after staging
the parsed fields onto the passed instance) leaves the in-memory entity
mutated: the instance's `version` field was overwritten before the
failure was raised, contradicting "raised strictly before any entity-field
mutation". -/
theorem validation_failure_untouched_counterexample :
    (from_upload envLangBad st0 upA (some lpOld)).outcome = some UploadError.validation ∧
    (from_upload envLangBad st0 upA (some lpOld)).inst ≠ some lpOld ∧
    Option.map LangPack.version ((from_upload envLangBad st0 upA (some lpOld)).inst)
      = some "1.0" ∧
    lpOld.version = "0.9" := by
  refine ⟨rfl, by decide, rfl, rfl⟩

/-- C4 (amended): a parse failure is raised before identity allocation,
version bump, any entity-field mutation and any file-system effect (the
call returns everything untouched); a post-parse `language` validation
failure still precedes identity allocation, the version bump, and any
storage or durable-record effect — but the manifest fields have by then
already been staged onto the in-memory instance. -/
theorem validation_failure_leaves_record_untouched (env : Env) (st : St) (upload : Upload)
    (inst : Option LangPack) :
    (∀ e, env.parse inst upload = Except.error e →
      from_upload env st upload inst =
        { st := st, upload := upload, inst := inst, outcome := some UploadError.validation }) ∧
    (∀ d, env.parse inst upload = Except.ok d →
      env.validate_language (staged env upload inst d).language = false →
      (from_upload env st upload inst).st = st ∧
      (from_upload env st upload inst).upload = upload ∧
      (from_upload env st upload inst).inst = some (staged env upload inst d) ∧
      (staged env upload inst d).uuid = init_uuid inst ∧
      (staged env upload inst d).file_version = init_file_version inst ∧
      (from_upload env st upload inst).outcome = some UploadError.validation) := by
  constructor
  · intro e he
    exact from_upload_parse_error env st upload inst e he
  · intro d hp hl
    rw [from_upload_bad_language env st upload inst d hp hl]
    exact ⟨rfl, rfl, rfl, staged_uuid env upload inst d, staged_file_version env upload inst d,
      rfl⟩

theorem validation_failure_leaves_record_untouched_witness :
    from_upload envParseBad st0 upA none =
      { st := st0, upload := upA, inst := none, outcome := some UploadError.validation } ∧
    (from_upload envLangBad st0 upA (some lpOld)).st = st0 :=
  ⟨(validation_failure_leaves_record_untouched envParseBad st0 upA none).1 () rfl,
   ((validation_failure_leaves_record_untouched envLangBad st0 upA (some lpOld)).2 dA
     rfl rfl).1⟩

/-- C5: identity allocation is lazy and idempotent — after a successful
upload the identity is the freshly minted one when the artifact had none,
and the pre-existing one otherwise — and across two successive successful
uploads onto the same artifact the identity is unchanged while
`file_version` strictly increases. -/
theorem identity_lazy_idempotent_and_stable (env1 env2 : Env) (st : St) (up1 up2 : Upload)
    (inst : Option LangPack) (a1 a2 : LangPack)
    (h1 : (from_upload env1 st up1 inst).outcome = none)
    (ha1 : (from_upload env1 st up1 inst).inst = some a1)
    (h2 : (from_upload env2 (from_upload env1 st up1 inst).st up2 (some a1)).outcome = none)
    (ha2 : (from_upload env2 (from_upload env1 st up1 inst).st up2 (some a1)).inst = some a2) :
    a1.uuid = (if init_uuid inst = none then some env1.create_uuid else init_uuid inst) ∧
    a2.uuid = a1.uuid ∧
    a1.file_version = init_file_version inst + 1 ∧
    a2.file_version = a1.file_version + 1 ∧
    a1.file_version < a2.file_version := by
  obtain ⟨d1, hp1, hl1, hc1, hs1⟩ := from_upload_success_inv env1 st up1 inst h1
  rw [from_upload_success_eq env1 st up1 inst d1 hp1 hl1 hc1 hs1] at ha1 h2 ha2
  have ea1 : final_row env1 up1 inst d1 = a1 := Option.some.inj ha1
  obtain ⟨d2, hp2, hl2, hc2, hs2⟩ := from_upload_success_inv env2 _ up2 (some a1) h2
  rw [from_upload_success_eq env2 _ up2 (some a1) d2 hp2 hl2 hc2 hs2] at ha2
  have ea2 : final_row env2 up2 (some a1) d2 = a2 := Option.some.inj ha2
  subst ea1
  subst ea2
  have hne : (final_row env1 up1 inst d1).uuid ≠ none := by
    rw [final_row_uuid]
    split <;> simp_all
  refine ⟨final_row_uuid env1 up1 inst d1, ?_, final_row_file_version env1 up1 inst d1, ?_, ?_⟩
  · rw [final_row_uuid env2 up2 (some (final_row env1 up1 inst d1)) d2]
    simp only [init_uuid]
    rw [if_neg hne]
  · rw [final_row_file_version env2 up2 (some (final_row env1 up1 inst d1)) d2]
    rfl
  · have e2 := final_row_file_version env2 up2 (some (final_row env1 up1 inst d1)) d2
    simp only [init_file_version] at e2
    omega

theorem identity_lazy_idempotent_and_stable_witness :
    (from_upload envA st0 upA none).outcome = none ∧
    (from_upload envA st0 upA none).inst = some lpW1 ∧
    (from_upload envA (from_upload envA st0 upA none).st upB (some lpW1)).outcome = none ∧
    (from_upload envA (from_upload envA st0 upA none).st upB (some lpW1)).inst = some lpW2 ∧
    (lpW1.uuid
        = (if init_uuid (none : Option LangPack) = none then some envA.create_uuid
           else init_uuid (none : Option LangPack)) ∧
      lpW2.uuid = lpW1.uuid ∧
      lpW1.file_version = init_file_version (none : Option LangPack) + 1 ∧
      lpW2.file_version = lpW1.file_version + 1 ∧
      lpW1.file_version < lpW2.file_version) :=
  ⟨rfl, rfl, rfl, rfl,
   identity_lazy_idempotent_and_stable envA envA st0 upA upB none lpW1 lpW2 rfl rfl rfl rfl⟩

/-- C6: the storage path is a pure deterministic function of the pair
(identity, declared version string) only — rows agreeing on `uuid` and
`version` get the same path, the path is invariant under `file_version`,
and on one identity distinct declared versions yield distinct paths. -/
theorem file_path_pure_function_of_identity_and_version (env : Env) :
    (∀ lp1 lp2 : LangPack, lp1.uuid = lp2.uuid → lp1.version = lp2.version →
      file_path env lp1 = file_path env lp2) ∧
    (∀ (lp : LangPack) (n : Nat),
      file_path env { lp with file_version := n } = file_path env lp) ∧
    (∀ lp1 lp2 : LangPack, lp1.uuid = lp2.uuid → lp1.version ≠ lp2.version →
      file_path env lp1 ≠ file_path env lp2) := by
  refine ⟨?_, ?_, ?_⟩
  · intro lp1 lp2 hu hv
    have hpk : pk_string lp1 = pk_string lp2 := by
      unfold pk_string
      rw [hu]
    unfold file_path filename
    rw [hpk, hv]
  · intro lp n
    rfl
  · intro lp1 lp2 hu hv hpath
    apply hv
    have hpk : pk_string lp1 = pk_string lp2 := by
      unfold pk_string
      rw [hu]
    have hd := congrArg String.data hpath
    simp only [file_path, filename, path_join, nfd_str, hpk, String.data_append,
      List.append_assoc] at hd
    iterate 8 replace hd := List.append_cancel_left hd
    exact String.ext (List.append_cancel_right hd)

theorem file_path_pure_function_witness :
    lpX.uuid = lpY.uuid ∧ lpX.version = lpY.version ∧
    file_path envA lpX = file_path envA lpY ∧
    lpX.uuid = lpZ.uuid ∧ lpX.version ≠ lpZ.version ∧
    file_path envA lpX ≠ file_path envA lpZ :=
  ⟨rfl, rfl, (file_path_pure_function_of_identity_and_version envA).1 lpX lpY rfl rfl,
   rfl, by decide,
   (file_path_pure_function_of_identity_and_version envA).2.2 lpX lpZ rfl (by decide)⟩

/-- C7: every upload that reaches the signing step invokes the signer
exactly once, with an identity block carrying exactly the artifact's
identity as `id` and the already-incremented `file_version` as `version`
(the block the resulting instance also carries). -/
theorem signer_invoked_with_identity_binding (env : Env) (st : St) (upload : Upload)
    (inst : Option LangPack) (d : ParsedData)
    (hp : env.parse inst upload = Except.ok d)
    (hl : env.validate_language (staged env upload inst d).language = true)
    (hc : dest_path env upload inst d ∉ st.storage) :
    ∃ a rest, (from_upload env st upload inst).inst = some a ∧
      (from_upload env st upload inst).st.trace.drop st.trace.length =
        Event.sign upload.path (dest_path env upload inst d)
          { id := pk_string a, version := init_file_version inst + 1 } :: rest ∧
      a.file_version = init_file_version inst + 1 ∧
      (∀ e ∈ rest, ∀ s dst ids, e ≠ Event.sign s dst ids) := by
  cases hs : env.sign_app upload.path (dest_path env upload inst d)
      (sign_ids env upload inst d) with
  | ok =>
      rw [from_upload_success_eq env st upload inst d hp hl hc hs]
      refine ⟨final_row env upload inst d,
        [Event.save (pk_string (final_row env upload inst d)),
         Event.minifest (pk_string (final_row env upload inst d)) true], rfl, ?_,
        final_row_file_version env upload inst d, ?_⟩
      · show (st.trace ++ _).drop st.trace.length = _
        rw [List.drop_left, sign_ids_spec]
      · intro e he s dst ids
        simp only [List.mem_cons, List.not_mem_nil, or_false] at he
        rcases he with h1 | h1 <;> subst h1 <;> simp
  | fail frag =>
      rw [from_upload_sign_fail env st upload inst d frag hp hl hc hs]
      refine ⟨final_row env upload inst d, [], rfl, ?_,
        final_row_file_version env upload inst d, ?_⟩
      · show (st.trace ++ _).drop st.trace.length = _
        rw [List.drop_left, sign_ids_spec]
      · intro e he s dst ids
        simp at he

theorem signer_invoked_with_identity_binding_witness :
    dest_path envA upA none dA ∉ st0.storage ∧
    (∃ a rest, (from_upload envA st0 upA none).inst = some a ∧
      (from_upload envA st0 upA none).st.trace.drop st0.trace.length =
        Event.sign upA.path (dest_path envA upA none dA)
          { id := pk_string a, version := init_file_version none + 1 } :: rest ∧
      a.file_version = init_file_version none + 1 ∧
      (∀ e ∈ rest, ∀ s dst ids, e ≠ Event.sign s dst ids)) :=
  ⟨by decide, signer_invoked_with_identity_binding envA st0 upA none dA rfl rfl (by decide)⟩

/-- C8: in every successful workflow the trace it appends is exactly a
signer call, then the row commit, then the mini-manifest refresh for the
same primary key with `force = true` — commit strictly before cache
refresh; and a workflow that fails never appends a cache-refresh event at
all (the cache never leads storage). -/
theorem cache_refresh_only_after_commit (env : Env) (st : St) (upload : Upload)
    (inst : Option LangPack) :
    ((from_upload env st upload inst).outcome = none →
      ∃ s dst ids pk, (from_upload env st upload inst).st.trace.drop st.trace.length =
        [Event.sign s dst ids, Event.save pk, Event.minifest pk true]) ∧
    ((from_upload env st upload inst).outcome ≠ none →
      ∀ e ∈ (from_upload env st upload inst).st.trace.drop st.trace.length,
        ∀ pk b, e ≠ Event.minifest pk b) := by
  cases hp : env.parse inst upload with
  | error e =>
      rw [from_upload_parse_error env st upload inst e hp]
      constructor
      · intro h
        simp at h
      · intro _ ev hev
        rw [List.drop_length] at hev
        simp at hev
  | ok d =>
      cases hl : env.validate_language (staged env upload inst d).language with
      | false =>
          rw [from_upload_bad_language env st upload inst d hp hl]
          constructor
          · intro h
            simp at h
          · intro _ ev hev
            rw [List.drop_length] at hev
            simp at hev
      | true =>
          by_cases hc : dest_path env upload inst d ∈ st.storage
          · rw [from_upload_collision env st upload inst d hp hl hc]
            constructor
            · intro h
              simp at h
            · intro _ ev hev
              rw [List.drop_length] at hev
              simp at hev
          · cases hs : env.sign_app upload.path (dest_path env upload inst d)
                (sign_ids env upload inst d) with
            | ok =>
                rw [from_upload_success_eq env st upload inst d hp hl hc hs]
                constructor
                · intro _
                  refine ⟨upload.path, dest_path env upload inst d,
                    sign_ids env upload inst d, pk_string (final_row env upload inst d), ?_⟩
                  show (st.trace ++ _).drop st.trace.length = _
                  rw [List.drop_left]
                · intro h
                  exact absurd rfl h
            | fail frag =>
                rw [from_upload_sign_fail env st upload inst d frag hp hl hc hs]
                constructor
                · intro h
                  simp at h
                · intro _ ev hev
                  show ∀ pk b, ev ≠ Event.minifest pk b
                  have : (st.trace ++ [Event.sign upload.path (dest_path env upload inst d)
                      (sign_ids env upload inst d)]).drop st.trace.length
                      = [Event.sign upload.path (dest_path env upload inst d)
                          (sign_ids env upload inst d)] := List.drop_left _ _
                  rw [this] at hev
                  simp only [List.mem_singleton] at hev
                  subst hev
                  simp

theorem cache_refresh_only_after_commit_witness :
    (from_upload envA st0 upA none).outcome = none ∧
    (∃ s dst ids pk, (from_upload envA st0 upA none).st.trace.drop st0.trace.length =
      [Event.sign s dst ids, Event.save pk, Event.minifest pk true]) ∧
    (from_upload envSignFail st0 upA none).outcome ≠ none ∧
    (∀ e ∈ (from_upload envSignFail st0 upA none).st.trace.drop st0.trace.length,
      ∀ pk b, e ≠ Event.minifest pk b) :=
  ⟨rfl, (cache_refresh_only_after_commit envA st0 upA none).1 rfl,
   by decide, (cache_refresh_only_after_commit envSignFail st0 upA none).2 (by decide)⟩

/-- C9: the pipeline never mutates the upload object it is given: after
`from_upload`, successful or failed, every field of the passed-in upload
(its staging path included) equals its value before the call. Relies on
the spec-modelled `smart_path` and `nfd_str`, under which the in-place
path normalization `upload.path = smart_path(nfd_str(upload.path))` is
value-preserving. -/
theorem upload_object_not_mutated (env : Env) (st : St) (upload : Upload)
    (inst : Option LangPack) :
    (from_upload env st upload inst).upload = upload := by
  cases hp : env.parse inst upload with
  | error e => rw [from_upload_parse_error env st upload inst e hp]
  | ok d =>
      cases hl : env.validate_language (staged env upload inst d).language with
      | false => rw [from_upload_bad_language env st upload inst d hp hl]
      | true =>
          by_cases hc : dest_path env upload inst d ∈ st.storage
          · rw [from_upload_collision env st upload inst d hp hl hc]
          · cases hs : env.sign_app upload.path (dest_path env upload inst d)
              (sign_ids env upload inst d) with
            | ok => rw [from_upload_success_eq env st upload inst d hp hl hc hs]
            | fail frag => rw [from_upload_sign_fail env st upload inst d frag hp hl hc hs]

/-- C10: for every successful `from_upload`, `get_manifest_json` on the
returned instance yields exactly the manifest-JSON value produced by the
parser for that upload, provided the external json codec round-trips on
that value (the stored blob is `json.dumps` of it and retrieval is
`json.loads`, with nothing in between altering it). -/
theorem manifest_round_trip (env : Env) (st : St) (upload : Upload)
    (inst : Option LangPack)
    (hrt : env.loads (env.dumps (env.get_json_data inst upload))
      = some (env.get_json_data inst upload))
    (h : (from_upload env st upload inst).outcome = none) :
    ∃ a, (from_upload env st upload inst).inst = some a ∧
      get_manifest_json env a = some (env.get_json_data inst upload) := by
  obtain ⟨d, hp, hl, hc, hs⟩ := from_upload_success_inv env st upload inst h
  rw [from_upload_success_eq env st upload inst d hp hl hc hs]
  refine ⟨final_row env upload inst d, rfl, ?_⟩
  rw [get_manifest_json, final_row_manifest, hrt]

theorem manifest_round_trip_witness :
    envA.loads (envA.dumps (envA.get_json_data none upA)) = some (envA.get_json_data none upA) ∧
    (from_upload envA st0 upA none).outcome = none ∧
    ∃ a, (from_upload envA st0 upA none).inst = some a ∧
      get_manifest_json envA a = some (envA.get_json_data none upA) :=
  ⟨rfl, rfl, manifest_round_trip envA st0 upA none rfl rfl⟩


end LangPacks
